import Mathlib

/-!
Verification of the Fixture Difficulty Rating (FDR) engine of the fpl-viz
repository (`src/services/fixtureDifficultyService.ts`, class
`FixtureDifficultyService`).

The embedding is shallow: each TypeScript function is translated into a Lean
definition over exact rational arithmetic (`ℚ` models JavaScript's `number`;
all quantities involved are small decimal literals and linear combinations,
so the algebraic identities proved here are exactly the ones the source
computes up to floating-point rounding).  The `Map`s of the source are
modelled as association lists in insertion order, `Map.get` as `List.find?`.
Asynchronous single-flight caching (`calculateTeamStrengths`) is modelled as
an explicit event/step state machine under the single-threaded cooperative
scheduling model the code runs in (one JavaScript event loop; `await` points
are the only interleaving points).
-/

namespace FplViz

/-! ## Scaling helpers (source lines 261–295) -/

/-- Blend weight for xG vs GF (`const ALPHA = 0.7`, line 316). -/
def ALPHA : ℚ := 7/10

/-- Blend weight for xGA vs GA (`const BETA = 0.7`, line 317). -/
def BETA : ℚ := 7/10

/-- `scaleTo100(value, min, max)`: linear map of `value` onto 0–100 relative
to `[min, max]`; returns 50 when `max === min` (source lines 265–268). -/
def scaleTo100 (value min max : ℚ) : ℚ :=
  if max = min then 50 else (value - min) / (max - min) * 100

/-- `scaleTo100Inverted(value, min, max)`: inverted linear map, lowest raw
value scores 100; returns 50 when `max === min` (source lines 274–278). -/
def scaleTo100Inverted (value min max : ℚ) : ℚ :=
  if max = min then 50 else (max - value) / (max - min) * 100

/-- `scaleToDifficulty(rating)`: buckets a 0–100 composite into the integer
1–5 difficulty scale (source lines 284–295). -/
def scaleToDifficulty (rating : ℚ) : Nat :=
  if rating ≤ 20 then 1
  else if rating ≤ 40 then 2
  else if rating ≤ 60 then 3
  else if rating ≤ 80 then 4
  else 5

/-- Claim C3: the raw→bucket conversion maps raw≤20 to 1, ≤40 to 2, ≤60 to 3,
≤80 to 4 and anything greater to 5, with boundaries inclusive on the lower
bucket, and in particular 20.0↦1, 20.01↦2, 40.0↦2, 60.0↦3, 80.0↦4, 80.01↦5,
100↦5 and 0↦1. -/
theorem c3_bucket_boundaries :
    (∀ raw : ℚ,
      (scaleToDifficulty raw = 1 ↔ raw ≤ 20) ∧
      (scaleToDifficulty raw = 2 ↔ 20 < raw ∧ raw ≤ 40) ∧
      (scaleToDifficulty raw = 3 ↔ 40 < raw ∧ raw ≤ 60) ∧
      (scaleToDifficulty raw = 4 ↔ 60 < raw ∧ raw ≤ 80) ∧
      (scaleToDifficulty raw = 5 ↔ 80 < raw)) ∧
    scaleToDifficulty 20 = 1 ∧ scaleToDifficulty (2001/100) = 2 ∧
    scaleToDifficulty 40 = 2 ∧ scaleToDifficulty 60 = 3 ∧
    scaleToDifficulty 80 = 4 ∧ scaleToDifficulty (8001/100) = 5 ∧
    scaleToDifficulty 100 = 5 ∧ scaleToDifficulty 0 = 1 := by
  constructor
  · intro raw
    unfold scaleToDifficulty
    split_ifs with h1 h2 h3 h4 <;>
      refine ⟨?_, ?_, ?_, ?_, ?_⟩ <;> constructor <;>
      intro h <;> simp_all <;> linarith
  · refine ⟨?_, ?_, ?_, ?_, ?_, ?_, ?_, ?_⟩ <;> norm_num [scaleToDifficulty]

/-- Claim C8: for `min < max`, the inverted scaler is the reflection of the
direct one (`scaleTo100Inverted = 100 − scaleTo100`), and in the degenerate
case `min == max` both scalers return exactly 50 for every input. -/
theorem c8_inverted_scaler_reflection (value min max : ℚ) (h : min < max) :
    scaleTo100Inverted value min max = 100 - scaleTo100 value min max ∧
    (∀ v m : ℚ, scaleTo100 v m m = 50 ∧ scaleTo100Inverted v m m = 50) := by
  constructor
  · have hne : max ≠ min := ne_of_gt h
    have hsub : max - min ≠ 0 := sub_ne_zero.mpr hne
    unfold scaleTo100 scaleTo100Inverted
    rw [if_neg hne, if_neg hne]
    field_simp
    ring
  · intro v m
    constructor <;> simp [scaleTo100, scaleTo100Inverted]

/-- Witness for C8 at `value = 7`, `min = 2`, `max = 5` (and degenerate
bounds `5 = 5`). -/
theorem c8_witness :
    scaleTo100Inverted 7 2 5 = 100 - scaleTo100 7 2 5 ∧
    scaleTo100 3 5 5 = 50 ∧ scaleTo100Inverted 3 5 5 = 50 := by
  have h := c8_inverted_scaler_reflection 7 2 5 (by norm_num)
  exact ⟨h.1, h.2 3 5⟩

/-! ## Data model (source lines 7–55) -/

/-- `TeamStrength` (source lines 7–31): per-team season and home/away split
statistics plus the home-advantage bonuses and the rolling form factor. -/
structure TeamStrength where
  teamId : Int
  teamName : String
  xGPer90 : ℚ
  xGAPer90 : ℚ
  gfPer90 : ℚ
  gaPer90 : ℚ
  xGPer90Home : ℚ
  xGAPer90Home : ℚ
  xGPer90Away : ℚ
  xGAPer90Away : ℚ
  gfPer90Home : ℚ
  gaPer90Home : ℚ
  gfPer90Away : ℚ
  gaPer90Away : ℚ
  homeAttackBonus : ℚ
  homeDefenseBonus : ℚ
  formFactor : ℚ
  deriving DecidableEq

/-- The per-fixture input of `calculateFixtureDifficulty` (source line 302):
`{ gameweek; opponentTeamId; isHome }`. -/
structure UpcomingFixture where
  gameweek : Int
  opponentTeamId : Int
  isHome : Bool
  deriving DecidableEq

/-- An entry of the bootstrap team directory (`bootstrap.teams`), used to
resolve opponent display names (source lines 312, 368). -/
structure FPLTeam where
  id : Int
  name : String
  deriving DecidableEq

/-- `FixtureDifficulty` (source lines 33–42): the per-fixture rating. -/
structure FixtureDifficulty where
  gameweek : Int
  opponentTeamId : Int
  opponentTeamName : String
  isHome : Bool
  attackDifficulty : Nat
  defenseDifficulty : Nat
  attackDifficultyRaw : ℚ
  defenseDifficultyRaw : ℚ
  deriving DecidableEq

/-- `FPLFixture` (source lines 44–55), restricted to the fields the service
reads (`event`, `team_h`, `team_a`, `finished`); the display-only fields
(`kickoff_time`, scores, provider `difficulty`) are omitted. -/
structure FPLFixture where
  id : Int
  event : Int
  team_h : Int
  team_a : Int
  finished : Bool
  deriving DecidableEq

/-! ## Population pools and bounds (source lines 319–355)

JavaScript `Map` iteration is in insertion order; the strength map is
modelled as the list of its values in that order, and `Map.get` as
`List.find?` on `teamId`. -/

/-- `teamStrengths.get(id)` (source line 362). -/
def findStrength (strengths : List TeamStrength) (id : Int) :
    Option TeamStrength :=
  strengths.find? (fun s => s.teamId == id)

/-- `teams.find(t => t.id === id)` (source line 368). -/
def findTeam (teams : List FPLTeam) (id : Int) : Option FPLTeam :=
  teams.find? (fun t => t.id == id)

/-- Blended home attack rating `ALPHA·xGPer90Home + (1−ALPHA)·gfPer90Home`
(source line 328). -/
def homeAttackRating (s : TeamStrength) : ℚ :=
  ALPHA * s.xGPer90Home + (1 - ALPHA) * s.gfPer90Home

/-- Blended away attack rating (source line 332). -/
def awayAttackRating (s : TeamStrength) : ℚ :=
  ALPHA * s.xGPer90Away + (1 - ALPHA) * s.gfPer90Away

/-- Blended home defense rating `BETA·xGAPer90Home + (1−BETA)·gaPer90Home`
(source line 336). -/
def homeDefenseRating (s : TeamStrength) : ℚ :=
  BETA * s.xGAPer90Home + (1 - BETA) * s.gaPer90Home

/-- Blended away defense rating (source line 340). -/
def awayDefenseRating (s : TeamStrength) : ℚ :=
  BETA * s.xGAPer90Away + (1 - BETA) * s.gaPer90Away

/-- `Math.min(...pool)` over a population pool.  The empty case (where the
JavaScript spread would produce `Infinity`) is never consulted: an empty
strength map scores no fixture. -/
def listMin : List ℚ → ℚ
  | [] => 0
  | x :: xs => xs.foldl min x

/-- `Math.max(...pool)` over a population pool (empty case as in `listMin`). -/
def listMax : List ℚ → ℚ
  | [] => 0
  | x :: xs => xs.foldl max x

/-- `allHomeAttackRatings` pool (source lines 326–329). -/
def allHomeAttackRatings (strengths : List TeamStrength) : List ℚ :=
  strengths.map homeAttackRating

/-- `allAwayAttackRatings` pool (source lines 331–333). -/
def allAwayAttackRatings (strengths : List TeamStrength) : List ℚ :=
  strengths.map awayAttackRating

/-- `allHomeDefenseRatings` pool (source lines 335–337). -/
def allHomeDefenseRatings (strengths : List TeamStrength) : List ℚ :=
  strengths.map homeDefenseRating

/-- `allAwayDefenseRatings` pool (source lines 339–341). -/
def allAwayDefenseRatings (strengths : List TeamStrength) : List ℚ :=
  strengths.map awayDefenseRating

/-- `allFormFactors` pool (source line 343). -/
def allFormFactors (strengths : List TeamStrength) : List ℚ :=
  strengths.map (fun s => s.formFactor)

/-- `minHomeAttack` (source line 346). -/
def minHomeAttack (strengths : List TeamStrength) : ℚ :=
  listMin (allHomeAttackRatings strengths)

/-- `maxHomeAttack` (source line 347). -/
def maxHomeAttack (strengths : List TeamStrength) : ℚ :=
  listMax (allHomeAttackRatings strengths)

/-- `minAwayAttack` (source line 348). -/
def minAwayAttack (strengths : List TeamStrength) : ℚ :=
  listMin (allAwayAttackRatings strengths)

/-- `maxAwayAttack` (source line 349). -/
def maxAwayAttack (strengths : List TeamStrength) : ℚ :=
  listMax (allAwayAttackRatings strengths)

/-- `minHomeDefense` (source line 350). -/
def minHomeDefense (strengths : List TeamStrength) : ℚ :=
  listMin (allHomeDefenseRatings strengths)

/-- `maxHomeDefense` (source line 351). -/
def maxHomeDefense (strengths : List TeamStrength) : ℚ :=
  listMax (allHomeDefenseRatings strengths)

/-- `minAwayDefense` (source line 352). -/
def minAwayDefense (strengths : List TeamStrength) : ℚ :=
  listMin (allAwayDefenseRatings strengths)

/-- `maxAwayDefense` (source line 353). -/
def maxAwayDefense (strengths : List TeamStrength) : ℚ :=
  listMax (allAwayDefenseRatings strengths)

/-- `minForm` (source line 354). -/
def minForm (strengths : List TeamStrength) : ℚ :=
  listMin (allFormFactors strengths)

/-- `maxForm` (source line 355). -/
def maxForm (strengths : List TeamStrength) : ℚ :=
  listMax (allFormFactors strengths)

/-! ## Per-fixture scoring (source lines 361–443) -/

/-- Opponent blended attack rating using the venue-correct split: when the
scored team is home the opponent plays away (source lines 374–388). -/
def opponentAttackRating (isHome : Bool) (opp : TeamStrength) : ℚ :=
  let opponentXG := if isHome then opp.xGPer90Away else opp.xGPer90Home
  let opponentGF := if isHome then opp.gfPer90Away else opp.gfPer90Home
  ALPHA * opponentXG + (1 - ALPHA) * opponentGF

/-- Opponent blended defense rating using the venue-correct split
(source lines 377–389). -/
def opponentDefenseRating (isHome : Bool) (opp : TeamStrength) : ℚ :=
  let opponentXGA := if isHome then opp.xGAPer90Away else opp.xGAPer90Home
  let opponentGA := if isHome then opp.gaPer90Away else opp.gaPer90Home
  BETA * opponentXGA + (1 - BETA) * opponentGA

/-- `attackRatingScaled` (source lines 392–397): the opponent attack rating
scaled against the venue-matching population bounds. -/
def attackRatingScaled (strengths : List TeamStrength) (isHome : Bool)
    (opp : TeamStrength) : ℚ :=
  let minAttack := if isHome then minAwayAttack strengths else minHomeAttack strengths
  let maxAttack := if isHome then maxAwayAttack strengths else maxHomeAttack strengths
  scaleTo100 (opponentAttackRating isHome opp) minAttack maxAttack

/-- `defenseRatingScaled` (source lines 394–398): the opponent defense rating
scaled (inverted) against the venue-matching population bounds. -/
def defenseRatingScaled (strengths : List TeamStrength) (isHome : Bool)
    (opp : TeamStrength) : ℚ :=
  let minDefense := if isHome then minAwayDefense strengths else minHomeDefense strengths
  let maxDefense := if isHome then maxAwayDefense strengths else maxHomeDefense strengths
  scaleTo100Inverted (opponentDefenseRating isHome opp) minDefense maxDefense

/-- `homeAwayFactorScaled` (source lines 400–407): team-specific home/away
bonus mapped through `50 + bonus·20` and clamped to `[0, 100]`. -/
def homeAwayFactorScaled (isHome : Bool) (opp : TeamStrength) : ℚ :=
  let homeAwayBonus := if isHome then opp.homeDefenseBonus else -opp.homeAttackBonus
  max 0 (min 100 (50 + homeAwayBonus * 20))

/-- `formFactorScaled` (source line 410): opponent form factor scaled against
the league form bounds. -/
def formFactorScaled (strengths : List TeamStrength) (opp : TeamStrength) : ℚ :=
  scaleTo100 opp.formFactor (minForm strengths) (maxForm strengths)

/-- The loop body of `calculateFixtureDifficulty` for one fixture whose
opponent strength and directory entry were both found (source lines
371–442). -/
def rateFixture (strengths : List TeamStrength) (fixture : UpcomingFixture)
    (opp : TeamStrength) (oppName : String) : FixtureDifficulty :=
  let attackDifficultyRaw :=
    defenseRatingScaled strengths fixture.isHome opp * (70/100) +
    attackRatingScaled strengths fixture.isHome opp * (20/100) +
    homeAwayFactorScaled fixture.isHome opp * (5/100) +
    formFactorScaled strengths opp * (5/100)
  let defenseDifficultyRaw :=
    attackRatingScaled strengths fixture.isHome opp * (70/100) +
    defenseRatingScaled strengths fixture.isHome opp * (20/100) +
    homeAwayFactorScaled fixture.isHome opp * (5/100) +
    formFactorScaled strengths opp * (5/100)
  { gameweek := fixture.gameweek
    opponentTeamId := fixture.opponentTeamId
    opponentTeamName := oppName
    isHome := fixture.isHome
    attackDifficulty := scaleToDifficulty attackDifficultyRaw
    defenseDifficulty := scaleToDifficulty defenseDifficultyRaw
    attackDifficultyRaw := attackDifficultyRaw
    defenseDifficultyRaw := defenseDifficultyRaw }

/-- The `for … continue` loop of `calculateFixtureDifficulty` (source lines
359–443), returning both the accumulated ratings and the team ids for which
`console.warn('No strength data …')` fired.  A fixture whose opponent is
missing from the strength map is skipped with a warning; one missing from
the team directory is skipped silently. -/
def calcLoop (strengths : List TeamStrength) (teams : List FPLTeam) :
    List UpcomingFixture → List FixtureDifficulty × List Int
  | [] => ([], [])
  | fixture :: rest =>
    match findStrength strengths fixture.opponentTeamId with
    | none =>
      let r := calcLoop strengths teams rest
      (r.1, fixture.opponentTeamId :: r.2)
    | some opp =>
      match findTeam teams fixture.opponentTeamId with
      | none => calcLoop strengths teams rest
      | some oppTeam =>
        let r := calcLoop strengths teams rest
        (rateFixture strengths fixture opp oppTeam.name :: r.1, r.2)

/-- `calculateFixtureDifficulty(_teamId, upcomingFixtures)` (source lines
300–446): the list of ratings produced by the loop.  The league strength map
and team directory are explicit parameters here; in the source they are
obtained from `calculateTeamStrengths()` and the bootstrap cache. -/
def calculateFixtureDifficulty (strengths : List TeamStrength)
    (teams : List FPLTeam) (upcomingFixtures : List UpcomingFixture) :
    List FixtureDifficulty :=
  (calcLoop strengths teams upcomingFixtures).1

/-- The `No strength data for team …` warnings recorded by the same loop
(source line 364). -/
def strengthWarnings (strengths : List TeamStrength) (teams : List FPLTeam)
    (upcomingFixtures : List UpcomingFixture) : List Int :=
  (calcLoop strengths teams upcomingFixtures).2

/-- Composite weights of the final FDR formula (source lines 415–427):
primary opponent signal. -/
def w1 : ℚ := 70/100

/-- Context opponent signal weight. -/
def w2 : ℚ := 20/100

/-- Home/away factor weight. -/
def w3 : ℚ := 5/100

/-- Form factor weight. -/
def w4 : ℚ := 5/100

/-- The weighted composite shape shared by the attack and defense formulas:
`primary·0.70 + context·0.20 + homeAway·0.05 + form·0.05`. -/
def weightedComposite (primary context homeAway form : ℚ) : ℚ :=
  primary * (70/100) + context * (20/100) + homeAway * (5/100) + form * (5/100)

/-- Every rating returned by `calculateFixtureDifficulty` is `rateFixture`
applied to one of the input fixtures whose opponent was found both in the
strength map and in the team directory. -/
theorem mem_calculateFixtureDifficulty
    {strengths : List TeamStrength} {teams : List FPLTeam}
    {fxs : List UpcomingFixture} {r : FixtureDifficulty}
    (hr : r ∈ calculateFixtureDifficulty strengths teams fxs) :
    ∃ fixture ∈ fxs, ∃ opp oppTeam,
      findStrength strengths fixture.opponentTeamId = some opp ∧
      findTeam teams fixture.opponentTeamId = some oppTeam ∧
      r = rateFixture strengths fixture opp oppTeam.name := by
  induction fxs with
  | nil => simp [calculateFixtureDifficulty, calcLoop] at hr
  | cons f rest ih =>
    unfold calculateFixtureDifficulty calcLoop at hr
    cases hs : findStrength strengths f.opponentTeamId with
    | none =>
      rw [hs] at hr
      obtain ⟨f', hf', rest'⟩ := ih hr
      exact ⟨f', List.mem_cons_of_mem _ hf', rest'⟩
    | some opp =>
      rw [hs] at hr
      cases ht : findTeam teams f.opponentTeamId with
      | none =>
        rw [ht] at hr
        obtain ⟨f', hf', rest'⟩ := ih hr
        exact ⟨f', List.mem_cons_of_mem _ hf', rest'⟩
      | some oppTeam =>
        rw [ht] at hr
        rcases List.mem_cons.mp hr with hhead | htail
        · exact ⟨f, List.mem_cons_self f rest, opp, oppTeam, hs, ht, hhead⟩
        · obtain ⟨f', hf', rest'⟩ := ih htail
          exact ⟨f', List.mem_cons_of_mem _ hf', rest'⟩

/-- Claim C1: every scored fixture's pre-bucket attack difficulty raw equals
the weighted composite `defenseRatingScaled·0.70 + attackRatingScaled·0.20 +
homeAwayFactorScaled·0.05 + formFactorScaled·0.05`, and the default weights
`w1=0.70, w2=0.20, w3=0.05, w4=0.05` sum to 1. -/
theorem c1_attack_composite
    (strengths : List TeamStrength) (teams : List FPLTeam)
    (fxs : List UpcomingFixture) (r : FixtureDifficulty)
    (hr : r ∈ calculateFixtureDifficulty strengths teams fxs) :
    w1 + w2 + w3 + w4 = 1 ∧
    ∃ opp, findStrength strengths r.opponentTeamId = some opp ∧
      r.attackDifficultyRaw =
        defenseRatingScaled strengths r.isHome opp * w1 +
        attackRatingScaled strengths r.isHome opp * w2 +
        homeAwayFactorScaled r.isHome opp * w3 +
        formFactorScaled strengths opp * w4 := by
  refine ⟨by norm_num [w1, w2, w3, w4], ?_⟩
  obtain ⟨f, _, opp, oppTeam, hs, _, rfl⟩ := mem_calculateFixtureDifficulty hr
  exact ⟨opp, hs, by simp [rateFixture, w1, w2, w3, w4]⟩

/-- Claim C2: defense difficulty is the structural mirror of attack
difficulty — both raw scores are instances of the same weighted composite,
and swapping its scaled attack and scaled defense inputs turns the attack
score into the defense score (the home/away and form terms unchanged). -/
theorem c2_defense_mirror
    (strengths : List TeamStrength) (teams : List FPLTeam)
    (fxs : List UpcomingFixture) (r : FixtureDifficulty)
    (hr : r ∈ calculateFixtureDifficulty strengths teams fxs) :
    ∃ opp, findStrength strengths r.opponentTeamId = some opp ∧
      r.attackDifficultyRaw =
        weightedComposite (defenseRatingScaled strengths r.isHome opp)
          (attackRatingScaled strengths r.isHome opp)
          (homeAwayFactorScaled r.isHome opp)
          (formFactorScaled strengths opp) ∧
      r.defenseDifficultyRaw =
        weightedComposite (attackRatingScaled strengths r.isHome opp)
          (defenseRatingScaled strengths r.isHome opp)
          (homeAwayFactorScaled r.isHome opp)
          (formFactorScaled strengths opp) := by
  obtain ⟨f, _, opp, oppTeam, hs, _, rfl⟩ := mem_calculateFixtureDifficulty hr
  exact ⟨opp, hs, by simp [rateFixture, weightedComposite],
    by simp [rateFixture, weightedComposite]⟩

/-! ## Concrete league used for the witnesses -/

/-- Example team "Alpha" (id 2). -/
def exTeamA : TeamStrength :=
  { teamId := 2, teamName := "Alpha"
    xGPer90 := 1, xGAPer90 := 1, gfPer90 := 1, gaPer90 := 1
    xGPer90Home := 12/10, xGAPer90Home := 9/10
    xGPer90Away := 8/10, xGAPer90Away := 11/10
    gfPer90Home := 13/10, gaPer90Home := 1
    gfPer90Away := 7/10, gaPer90Away := 12/10
    homeAttackBonus := 2/10, homeDefenseBonus := 1/10
    formFactor := 3/10 }

/-- Example team "Beta" (id 3). -/
def exTeamB : TeamStrength :=
  { teamId := 3, teamName := "Beta"
    xGPer90 := 2, xGAPer90 := 8/10, gfPer90 := 2, gaPer90 := 9/10
    xGPer90Home := 22/10, xGAPer90Home := 7/10
    xGPer90Away := 18/10, xGAPer90Away := 9/10
    gfPer90Home := 21/10, gaPer90Home := 8/10
    gfPer90Away := 19/10, gaPer90Away := 1
    homeAttackBonus := 2/10, homeDefenseBonus := 1/10
    formFactor := 8/10 }

/-- Example strength map (insertion order `[Alpha, Beta]`). -/
def exStrengths : List TeamStrength := [exTeamA, exTeamB]

/-- Example team directory. -/
def exTeams : List FPLTeam := [⟨2, "Alpha"⟩, ⟨3, "Beta"⟩]

/-- Example fixture: home against Beta in gameweek 12. -/
def exFixture : UpcomingFixture := ⟨12, 3, true⟩

/-- The rating the example league produces for `exFixture`. -/
def exRating : FixtureDifficulty :=
  rateFixture exStrengths exFixture exTeamB "Beta"

/-- The example fixture is scored, and its rating is `exRating`. -/
theorem exRating_mem :
    exRating ∈ calculateFixtureDifficulty exStrengths exTeams [exFixture] := by
  simp [calculateFixtureDifficulty, calcLoop, findStrength, findTeam,
    exStrengths, exTeams, exFixture, exTeamA, exTeamB, exRating, List.find?]

/-- Witness for C1 at the concrete example league. -/
theorem c1_witness :
    w1 + w2 + w3 + w4 = 1 ∧
    ∃ opp, findStrength exStrengths exRating.opponentTeamId = some opp ∧
      exRating.attackDifficultyRaw =
        defenseRatingScaled exStrengths exRating.isHome opp * w1 +
        attackRatingScaled exStrengths exRating.isHome opp * w2 +
        homeAwayFactorScaled exRating.isHome opp * w3 +
        formFactorScaled exStrengths opp * w4 :=
  c1_attack_composite exStrengths exTeams [exFixture] exRating exRating_mem

/-- Folding `min` over a list never exceeds the initial accumulator. -/
theorem foldl_min_le_init (xs : List ℚ) (x : ℚ) : xs.foldl min x ≤ x := by
  induction xs generalizing x with
  | nil => exact le_refl x
  | cons y ys ih => exact le_trans (ih (min x y)) (min_le_left x y)

/-- Folding `min` over a list bounds every member from below. -/
theorem foldl_min_le_mem {a : ℚ} :
    ∀ (xs : List ℚ) (x : ℚ), a ∈ xs → xs.foldl min x ≤ a := by
  intro xs
  induction xs with
  | nil => intro x h; cases h
  | cons y ys ih =>
    intro x h
    rcases List.mem_cons.mp h with rfl | hmem
    · exact le_trans (foldl_min_le_init ys (min x a)) (min_le_right x a)
    · exact ih (min x y) hmem

/-- Folding `max` over a list is at least the initial accumulator. -/
theorem le_foldl_max_init (xs : List ℚ) (x : ℚ) : x ≤ xs.foldl max x := by
  induction xs generalizing x with
  | nil => exact le_refl x
  | cons y ys ih => exact le_trans (le_max_left x y) (ih (max x y))

/-- Folding `max` over a list bounds every member from above. -/
theorem le_foldl_max_mem {a : ℚ} :
    ∀ (xs : List ℚ) (x : ℚ), a ∈ xs → a ≤ xs.foldl max x := by
  intro xs
  induction xs with
  | nil => intro x h; cases h
  | cons y ys ih =>
    intro x h
    rcases List.mem_cons.mp h with rfl | hmem
    · exact le_trans (le_max_right x a) (le_foldl_max_init ys (max x a))
    · exact ih (max x y) hmem

/-- `listMin` bounds every pool member from below. -/
theorem listMin_le {l : List ℚ} {a : ℚ} (ha : a ∈ l) : listMin l ≤ a := by
  cases l with
  | nil => cases ha
  | cons x xs =>
    rcases List.mem_cons.mp ha with rfl | hmem
    · exact foldl_min_le_init xs a
    · exact foldl_min_le_mem xs x hmem

/-- `listMax` bounds every pool member from above. -/
theorem le_listMax {l : List ℚ} {a : ℚ} (ha : a ∈ l) : a ≤ listMax l := by
  cases l with
  | nil => cases ha
  | cons x xs =>
    rcases List.mem_cons.mp ha with rfl | hmem
    · exact le_foldl_max_init xs a
    · exact le_foldl_max_mem xs x hmem

/-- `scaleTo100` stays in `[0, 100]` on inputs inside the bounds. -/
theorem scaleTo100_bounds {v mn mx : ℚ} (h1 : mn ≤ v) (h2 : v ≤ mx) :
    0 ≤ scaleTo100 v mn mx ∧ scaleTo100 v mn mx ≤ 100 := by
  unfold scaleTo100
  split_ifs with h
  · norm_num
  · have hlt : mn < mx := lt_of_le_of_ne (le_trans h1 h2) (fun e => h e.symm)
    have hd : 0 < mx - mn := by linarith
    constructor
    · exact mul_nonneg (div_nonneg (by linarith) hd.le) (by norm_num)
    · have hq : (v - mn) / (mx - mn) ≤ 1 := (div_le_one hd).mpr (by linarith)
      calc (v - mn) / (mx - mn) * 100 ≤ 1 * 100 :=
            mul_le_mul_of_nonneg_right hq (by norm_num)
        _ = 100 := one_mul 100

/-- `scaleTo100Inverted` stays in `[0, 100]` on inputs inside the bounds. -/
theorem scaleTo100Inverted_bounds {v mn mx : ℚ} (h1 : mn ≤ v) (h2 : v ≤ mx) :
    0 ≤ scaleTo100Inverted v mn mx ∧ scaleTo100Inverted v mn mx ≤ 100 := by
  unfold scaleTo100Inverted
  split_ifs with h
  · norm_num
  · have hlt : mn < mx := lt_of_le_of_ne (le_trans h1 h2) (fun e => h e.symm)
    have hd : 0 < mx - mn := by linarith
    constructor
    · exact mul_nonneg (div_nonneg (by linarith) hd.le) (by norm_num)
    · have hq : (mx - v) / (mx - mn) ≤ 1 := (div_le_one hd).mpr (by linarith)
      calc (mx - v) / (mx - mn) * 100 ≤ 1 * 100 :=
            mul_le_mul_of_nonneg_right hq (by norm_num)
        _ = 100 := one_mul 100

/-- A pool member scaled against the pool's own bounds lands in `[0, 100]`. -/
theorem scaleTo100_pool_bounds {l : List ℚ} {v : ℚ} (hv : v ∈ l) :
    0 ≤ scaleTo100 v (listMin l) (listMax l) ∧
    scaleTo100 v (listMin l) (listMax l) ≤ 100 :=
  scaleTo100_bounds (listMin_le hv) (le_listMax hv)

/-- A pool member scaled inverted against the pool's own bounds lands in
`[0, 100]`. -/
theorem scaleTo100Inverted_pool_bounds {l : List ℚ} {v : ℚ} (hv : v ∈ l) :
    0 ≤ scaleTo100Inverted v (listMin l) (listMax l) ∧
    scaleTo100Inverted v (listMin l) (listMax l) ≤ 100 :=
  scaleTo100Inverted_bounds (listMin_le hv) (le_listMax hv)

/-- For a venue flag, the venue-correct opponent attack rating is the home or
away blended rating of the opponent. -/
theorem opponentAttackRating_eq (opp : TeamStrength) :
    opponentAttackRating true opp = awayAttackRating opp ∧
    opponentAttackRating false opp = homeAttackRating opp := by
  constructor <;> simp [opponentAttackRating, awayAttackRating, homeAttackRating]

/-- Venue-correct opponent defense rating as home/away blended rating. -/
theorem opponentDefenseRating_eq (opp : TeamStrength) :
    opponentDefenseRating true opp = awayDefenseRating opp ∧
    opponentDefenseRating false opp = homeDefenseRating opp := by
  constructor <;> simp [opponentDefenseRating, awayDefenseRating, homeDefenseRating]

/-- The scaled opponent attack rating of a mapped opponent is in `[0,100]`:
the opponent's venue-correct blended rating is a member of the pool that
defines the bounds. -/
theorem attackRatingScaled_bounds {strengths : List TeamStrength}
    {opp : TeamStrength} (hmem : opp ∈ strengths) (ih : Bool) :
    0 ≤ attackRatingScaled strengths ih opp ∧
    attackRatingScaled strengths ih opp ≤ 100 := by
  cases ih with
  | true =>
    have hv : opponentAttackRating true opp ∈ allAwayAttackRatings strengths := by
      rw [(opponentAttackRating_eq opp).1, allAwayAttackRatings]
      exact List.mem_map_of_mem _ hmem
    simpa [attackRatingScaled, minAwayAttack, maxAwayAttack] using
      scaleTo100_pool_bounds hv
  | false =>
    have hv : opponentAttackRating false opp ∈ allHomeAttackRatings strengths := by
      rw [(opponentAttackRating_eq opp).2, allHomeAttackRatings]
      exact List.mem_map_of_mem _ hmem
    simpa [attackRatingScaled, minHomeAttack, maxHomeAttack] using
      scaleTo100_pool_bounds hv

/-- The scaled opponent defense rating of a mapped opponent is in `[0,100]`. -/
theorem defenseRatingScaled_bounds {strengths : List TeamStrength}
    {opp : TeamStrength} (hmem : opp ∈ strengths) (ih : Bool) :
    0 ≤ defenseRatingScaled strengths ih opp ∧
    defenseRatingScaled strengths ih opp ≤ 100 := by
  cases ih with
  | true =>
    have hv : opponentDefenseRating true opp ∈ allAwayDefenseRatings strengths := by
      rw [(opponentDefenseRating_eq opp).1, allAwayDefenseRatings]
      exact List.mem_map_of_mem _ hmem
    simpa [defenseRatingScaled, minAwayDefense, maxAwayDefense] using
      scaleTo100Inverted_pool_bounds hv
  | false =>
    have hv : opponentDefenseRating false opp ∈ allHomeDefenseRatings strengths := by
      rw [(opponentDefenseRating_eq opp).2, allHomeDefenseRatings]
      exact List.mem_map_of_mem _ hmem
    simpa [defenseRatingScaled, minHomeDefense, maxHomeDefense] using
      scaleTo100Inverted_pool_bounds hv

/-- The clamped home/away factor is in `[0,100]`. -/
theorem homeAwayFactorScaled_bounds (ih : Bool) (opp : TeamStrength) :
    0 ≤ homeAwayFactorScaled ih opp ∧ homeAwayFactorScaled ih opp ≤ 100 := by
  unfold homeAwayFactorScaled
  constructor
  · exact le_max_left 0 _
  · exact max_le (by norm_num) (min_le_left 100 _)

/-- The scaled form factor of a mapped opponent is in `[0,100]`. -/
theorem formFactorScaled_bounds {strengths : List TeamStrength}
    {opp : TeamStrength} (hmem : opp ∈ strengths) :
    0 ≤ formFactorScaled strengths opp ∧ formFactorScaled strengths opp ≤ 100 := by
  have hv : opp.formFactor ∈ allFormFactors strengths := by
    rw [allFormFactors]
    exact List.mem_map_of_mem _ hmem
  simpa [formFactorScaled, minForm, maxForm] using scaleTo100_pool_bounds hv

/-- Claim C9: every rating returned by the scorer has both pre-bucket raw
composites in `[0, 100]` — every scored fixture's opponent is a member of the
population pools defining the min/max bounds, the home/away factor is
clamped, and the four weights sum to 1. -/
theorem c9_raw_in_range
    (strengths : List TeamStrength) (teams : List FPLTeam)
    (fxs : List UpcomingFixture) (r : FixtureDifficulty)
    (hr : r ∈ calculateFixtureDifficulty strengths teams fxs) :
    0 ≤ r.attackDifficultyRaw ∧ r.attackDifficultyRaw ≤ 100 ∧
    0 ≤ r.defenseDifficultyRaw ∧ r.defenseDifficultyRaw ≤ 100 := by
  obtain ⟨f, _, opp, oppTeam, hs, _, rfl⟩ := mem_calculateFixtureDifficulty hr
  have hmem : opp ∈ strengths := by
    unfold findStrength at hs
    exact List.mem_of_find?_eq_some hs
  obtain ⟨ha0, ha1⟩ := attackRatingScaled_bounds hmem f.isHome
  obtain ⟨hd0, hd1⟩ := defenseRatingScaled_bounds hmem f.isHome
  obtain ⟨hh0, hh1⟩ := homeAwayFactorScaled_bounds f.isHome opp
  obtain ⟨hf0, hf1⟩ := formFactorScaled_bounds hmem
  simp only [rateFixture]
  refine ⟨?_, ?_, ?_, ?_⟩ <;> linarith

/-- Witness for C9 at the concrete example league. -/
theorem c9_witness :
    0 ≤ exRating.attackDifficultyRaw ∧ exRating.attackDifficultyRaw ≤ 100 ∧
    0 ≤ exRating.defenseDifficultyRaw ∧ exRating.defenseDifficultyRaw ≤ 100 :=
  c9_raw_in_range exStrengths exTeams [exFixture] exRating exRating_mem

/-- Claim C10: a fixture whose opponent is missing from the strength map is
skipped — the result for the whole batch equals the result with that fixture
removed (the request still succeeds with a shorter list, no default rating is
substituted) — and a warning naming the opponent is recorded. -/
theorem c10_unmapped_team_skipped
    (strengths : List TeamStrength) (teams : List FPLTeam)
    (xs ys : List UpcomingFixture) (f : UpcomingFixture)
    (hf : findStrength strengths f.opponentTeamId = none) :
    calculateFixtureDifficulty strengths teams (xs ++ f :: ys) =
      calculateFixtureDifficulty strengths teams (xs ++ ys) ∧
    f.opponentTeamId ∈ strengthWarnings strengths teams (xs ++ f :: ys) := by
  induction xs with
  | nil =>
    refine ⟨?_, ?_⟩ <;>
      simp [calculateFixtureDifficulty, strengthWarnings, calcLoop, hf]
  | cons x xs ih =>
    obtain ⟨ih1, ih2⟩ := ih
    simp only [calculateFixtureDifficulty, strengthWarnings,
      List.cons_append, calcLoop] at ih1 ih2 ⊢
    cases hx : findStrength strengths x.opponentTeamId with
    | none =>
      exact ⟨ih1, List.mem_cons_of_mem _ ih2⟩
    | some opp =>
      cases hxt : findTeam teams x.opponentTeamId with
      | none => exact ⟨ih1, ih2⟩
      | some oppTeam =>
        exact ⟨congrArg (List.cons (rateFixture strengths x opp oppTeam.name)) ih1, ih2⟩

/-- A fixture against an opponent absent from the example strength map. -/
def exBadFixture : UpcomingFixture := ⟨13, 99, false⟩

/-- Witness for C10: a batch containing an unmapped opponent (id 99) scores
to the same list as the batch without it, and 99 is warned about. -/
theorem c10_witness :
    calculateFixtureDifficulty exStrengths exTeams
        ([exFixture] ++ exBadFixture :: []) =
      calculateFixtureDifficulty exStrengths exTeams ([exFixture] ++ []) ∧
    exBadFixture.opponentTeamId ∈
      strengthWarnings exStrengths exTeams ([exFixture] ++ exBadFixture :: []) :=
  c10_unmapped_team_skipped exStrengths exTeams [exFixture] [] exBadFixture
    (by simp [findStrength, exStrengths, exTeamA, exTeamB, exBadFixture, List.find?])

/-- Witness for C2 at the concrete example league. -/
theorem c2_witness :
    ∃ opp, findStrength exStrengths exRating.opponentTeamId = some opp ∧
      exRating.attackDifficultyRaw =
        weightedComposite (defenseRatingScaled exStrengths exRating.isHome opp)
          (attackRatingScaled exStrengths exRating.isHome opp)
          (homeAwayFactorScaled exRating.isHome opp)
          (formFactorScaled exStrengths opp) ∧
      exRating.defenseDifficultyRaw =
        weightedComposite (attackRatingScaled exStrengths exRating.isHome opp)
          (defenseRatingScaled exStrengths exRating.isHome opp)
          (homeAwayFactorScaled exRating.isHome opp)
          (formFactorScaled exStrengths opp) :=
  c2_defense_mirror exStrengths exTeams [exFixture] exRating exRating_mem

/-! ## Façade: `getTeamUpcomingFixtures` (source lines 451–480) -/

/-- The comparison passed to `.sort((a, b) => a.event - b.event)` (source
line 467); JavaScript's sort is stable, modelled by `List.mergeSort`. -/
def eventLe (a b : FPLFixture) : Bool := decide (a.event ≤ b.event)

/-- `getTeamUpcomingFixtures(teamId, count = 10)` (source lines 451–480):
filter the external fixture list to this team's unfinished fixtures, sort by
gameweek, keep the first `count`, determine opponent and venue, and score
them.  The fixture list, strength map and team directory are explicit
parameters (in the source they come from the fixtures cache, the strength
cache and the bootstrap cache). -/
def getTeamUpcomingFixtures (allFixtures : List FPLFixture)
    (strengths : List TeamStrength) (teams : List FPLTeam)
    (teamId : Int) (count : Nat := 10) : List FixtureDifficulty :=
  let teamFixtures :=
    (((allFixtures.filter
        (fun f => !f.finished && (f.team_h == teamId || f.team_a == teamId))).mergeSort
        eventLe).take count).map
      (fun f =>
        { gameweek := f.event
          opponentTeamId := if f.team_h == teamId then f.team_a else f.team_h
          isHome := f.team_h == teamId })
  calculateFixtureDifficulty strengths teams teamFixtures

/-- The scorer returns at most one rating per input fixture. -/
theorem calcLoop_length_le (strengths : List TeamStrength) (teams : List FPLTeam)
    (fxs : List UpcomingFixture) :
    (calcLoop strengths teams fxs).1.length ≤ fxs.length := by
  induction fxs with
  | nil => simp [calcLoop]
  | cons f rest ih =>
    unfold calcLoop
    cases findStrength strengths f.opponentTeamId with
    | none => exact Nat.le_succ_of_le ih
    | some opp =>
      cases findTeam teams f.opponentTeamId with
      | none => exact Nat.le_succ_of_le ih
      | some oppTeam => simpa using Nat.succ_le_succ ih

/-- The gameweeks of the scorer's output form a sublist of the gameweeks of
its input (order preserved, some fixtures possibly skipped). -/
theorem calcLoop_gameweeks_sublist (strengths : List TeamStrength)
    (teams : List FPLTeam) (fxs : List UpcomingFixture) :
    ((calcLoop strengths teams fxs).1.map (fun r => r.gameweek)).Sublist
      (fxs.map (fun f => f.gameweek)) := by
  induction fxs with
  | nil => simp [calcLoop]
  | cons f rest ih =>
    unfold calcLoop
    cases findStrength strengths f.opponentTeamId with
    | none => exact List.Sublist.cons f.gameweek ih
    | some opp =>
      cases findTeam teams f.opponentTeamId with
      | none => exact List.Sublist.cons f.gameweek ih
      | some oppTeam => simpa [rateFixture] using List.Sublist.cons₂ f.gameweek ih

/-- The sorted team-fixture list is pairwise ordered by `event`. -/
theorem mergeSort_eventLe_pairwise (l : List FPLFixture) :
    (l.mergeSort eventLe).Pairwise (fun a b => a.event ≤ b.event) := by
  have h := @List.sorted_mergeSort FPLFixture eventLe
    (fun a b c h1 h2 => by
      simp only [eventLe, decide_eq_true_eq] at h1 h2 ⊢; omega)
    (fun a b => by
      simp only [eventLe, Bool.or_eq_true, decide_eq_true_eq]; omega) l
  exact h.imp (fun hab => by simpa [eventLe] using hab)

/-- Claim C7 (amended: the default horizon is 10, not 5):
`getTeamUpcomingFixtures` returns ratings for the team's unfinished fixtures
in ascending gameweek order, at most `count` of them, the `count` parameter
defaulting to 10 when omitted. -/
theorem c7_facade_selection (allFixtures : List FPLFixture)
    (strengths : List TeamStrength) (teams : List FPLTeam)
    (teamId : Int) (count : Nat) :
    getTeamUpcomingFixtures allFixtures strengths teams teamId =
      getTeamUpcomingFixtures allFixtures strengths teams teamId 10 ∧
    (getTeamUpcomingFixtures allFixtures strengths teams teamId count).length ≤ count ∧
    (getTeamUpcomingFixtures allFixtures strengths teams teamId count).Pairwise
      (fun a b => a.gameweek ≤ b.gameweek) ∧
    ∀ r ∈ getTeamUpcomingFixtures allFixtures strengths teams teamId count,
      ∃ f ∈ allFixtures, f.finished = false ∧
        (f.team_h = teamId ∨ f.team_a = teamId) ∧ r.gameweek = f.event := by
  refine ⟨rfl, ?_, ?_, ?_⟩
  · calc (getTeamUpcomingFixtures allFixtures strengths teams teamId count).length
        ≤ ((((allFixtures.filter
              (fun f => !f.finished && (f.team_h == teamId || f.team_a == teamId))).mergeSort
              eventLe).take count).map
            (fun f =>
              ({ gameweek := f.event
                 opponentTeamId := if f.team_h == teamId then f.team_a else f.team_h
                 isHome := f.team_h == teamId } : UpcomingFixture))).length :=
          calcLoop_length_le _ _ _
      _ ≤ count := by
          rw [List.length_map, List.length_take]
          exact min_le_left _ _
  · have hsorted := mergeSort_eventLe_pairwise
      (allFixtures.filter
        (fun f => !f.finished && (f.team_h == teamId || f.team_a == teamId)))
    have htake := hsorted.sublist (List.take_sublist count _)
    have hups : ((((allFixtures.filter
          (fun f => !f.finished && (f.team_h == teamId || f.team_a == teamId))).mergeSort
          eventLe).take count).map
        (fun f =>
          ({ gameweek := f.event
             opponentTeamId := if f.team_h == teamId then f.team_a else f.team_h
             isHome := f.team_h == teamId } : UpcomingFixture))).Pairwise
        (fun a b => a.gameweek ≤ b.gameweek) :=
      List.pairwise_map.mpr (htake.imp (fun hab => hab))
    have hgw : (((getTeamUpcomingFixtures allFixtures strengths teams teamId count).map
        (fun r => r.gameweek))).Pairwise (fun a b => a ≤ b) := by
      have hsub := calcLoop_gameweeks_sublist strengths teams
        ((((allFixtures.filter
            (fun f => !f.finished && (f.team_h == teamId || f.team_a == teamId))).mergeSort
            eventLe).take count).map
          (fun f =>
            ({ gameweek := f.event
               opponentTeamId := if f.team_h == teamId then f.team_a else f.team_h
               isHome := f.team_h == teamId } : UpcomingFixture)))
      have hupsgw := List.pairwise_map.mpr (hups.imp (fun hab => hab))
      exact (hupsgw.sublist hsub : _)
    have := List.pairwise_map.mp hgw
    exact this
  · intro r hr
    obtain ⟨fixture, hfix, opp, oppTeam, _, _, rfl⟩ :=
      mem_calculateFixtureDifficulty hr
    obtain ⟨f, hfmem, hf⟩ := List.mem_map.mp hfix
    have hfsorted : f ∈ (allFixtures.filter
        (fun g => !g.finished && (g.team_h == teamId || g.team_a == teamId))).mergeSort
        eventLe := (List.take_sublist count _).mem hfmem
    have hffilter := List.mem_mergeSort.mp hfsorted
    obtain ⟨hfall, hprop⟩ := List.mem_filter.mp hffilter
    refine ⟨f, hfall, ?_, ?_, ?_⟩
    · simp only [Bool.and_eq_true, Bool.not_eq_true'] at hprop
      exact hprop.1
    · simp only [Bool.and_eq_true, Bool.or_eq_true, beq_iff_eq] at hprop
      exact hprop.2
    · rw [← hf]
      simp [rateFixture]

/-- Witness for C7 (amended) on the example league, horizon 3. -/
theorem c7_witness :
    getTeamUpcomingFixtures [] exStrengths exTeams 1 =
      getTeamUpcomingFixtures [] exStrengths exTeams 1 10 ∧
    (getTeamUpcomingFixtures [] exStrengths exTeams 1 3).length ≤ 3 ∧
    (getTeamUpcomingFixtures [] exStrengths exTeams 1 3).Pairwise
      (fun a b => a.gameweek ≤ b.gameweek) ∧
    ∀ r ∈ getTeamUpcomingFixtures [] exStrengths exTeams 1 3,
      ∃ f ∈ ([] : List FPLFixture), f.finished = false ∧
        (f.team_h = 1 ∨ f.team_a = 1) ∧ r.gameweek = f.event :=
  c7_facade_selection [] exStrengths exTeams 1 3

/-- Six unfinished fixtures of team 1 against team 3, gameweeks 1–6. -/
def exAllFixtures : List FPLFixture :=
  [⟨101, 1, 1, 3, false⟩, ⟨102, 2, 3, 1, false⟩, ⟨103, 3, 1, 3, false⟩,
   ⟨104, 4, 3, 1, false⟩, ⟨105, 5, 1, 3, false⟩, ⟨106, 6, 3, 1, false⟩]

unseal List.merge List.mergeSort in
/-- Counterexample to C7 as stated: with the horizon omitted, the service
returns ratings for 6 fixtures, which is impossible under a default horizon
of 5 — the source default is `count = 10` (source line 451). -/
theorem c7_counterexample :
    ¬ ((getTeamUpcomingFixtures exAllFixtures exStrengths exTeams 1).length ≤ 5) := by
  decide

/-! ## Single-flight caching of `calculateTeamStrengths` (source lines 57–111)

The service runs on one JavaScript event loop (single-threaded cooperative
concurrency, spec §5): interleaving happens only at `await` points, so the
cache behaviour is captured by a sequential state machine processing events.
`teamStrengths` here models the `this.teamStrengths` map (`some` once
non-empty), `calculating` models `this.calculatingTeamStrengths !== null`.
`storedAt` and the `now` fields of events are ghost instrumentation used
only to *state* time-based claims: the source code never reads a clock in
`calculateTeamStrengths`, which is exactly what the step function reflects.
`computeCount` counts invocations of `_calculateTeamStrengths`, and
`delivered` records the outcome each caller observes. -/

/-- Outcome a caller of `calculateTeamStrengths` observes: the strength map,
or the propagated rejection. -/
inductive CallResult (V : Type) where
  | ok (v : V)
  | err
  deriving DecidableEq

/-- State of the strength cache (source lines 58–60) plus ghost observers. -/
structure CacheState (V : Type) where
  teamStrengths : Option V
  calculating : Bool
  waiters : List Nat
  storedAt : Option Nat
  computeCount : Nat
  delivered : List (Nat × CallResult V)
  deriving DecidableEq

/-- Events at the cache: a caller invoking `calculateTeamStrengths` at some
wall-clock time, and the in-flight computation fulfilling or rejecting. -/
inductive CacheEvent (V : Type) where
  | call (caller : Nat) (now : Nat)
  | resolveOk (v : V) (now : Nat)
  | resolveErr
  deriving DecidableEq

/-- The cache as the service constructs it: nothing cached, nothing in
flight. -/
def initCache (V : Type) : CacheState V :=
  { teamStrengths := none, calculating := false, waiters := [],
    storedAt := none, computeCount := 0, delivered := [] }

/-- One step of `calculateTeamStrengths` (source lines 89–111):
a call returns the cached map if present (line 91), else joins the in-flight
promise if one exists (line 96), else starts `_calculateTeamStrengths` and
stores the promise (line 101).  Fulfilment stores the map, clears the
promise and resumes every waiter with the same map (lines 104–106);
rejection clears the promise and rethrows to every waiter without storing
anything (lines 107–109).  Note the `call` step ignores `now` entirely: the
source consults no clock. -/
def cacheStep {V : Type} (s : CacheState V) : CacheEvent V → CacheState V
  | .call c _ =>
    match s.teamStrengths with
    | some v => { s with delivered := s.delivered ++ [(c, .ok v)] }
    | none =>
      if s.calculating then
        { s with waiters := s.waiters ++ [c] }
      else
        { s with calculating := true, computeCount := s.computeCount + 1,
                 waiters := s.waiters ++ [c] }
  | .resolveOk v now =>
    if s.calculating then
      { s with teamStrengths := some v, calculating := false, waiters := [],
               storedAt := some now,
               delivered := s.delivered ++ s.waiters.map (fun c => (c, .ok v)) }
    else s
  | .resolveErr =>
    if s.calculating then
      { s with calculating := false, waiters := [],
               delivered := s.delivered ++ s.waiters.map (fun c => (c, .err)) }
    else s

/-- Run a sequence of cache events. -/
def runEvents {V : Type} (s : CacheState V) : List (CacheEvent V) → CacheState V
  | [] => s
  | e :: es => runEvents (cacheStep s e) es

/-- The call events issued by a list of `(caller, time)` pairs. -/
def callsOf (V : Type) (calls : List (Nat × Nat)) : List (CacheEvent V) :=
  calls.map (fun p => CacheEvent.call p.1 p.2)

/-- While a computation is in flight and nothing is cached, further calls
only join the waiter list: no new computation starts. -/
theorem cache_calls_join {V : Type} (calls : List (Nat × Nat)) :
    ∀ s : CacheState V, s.teamStrengths = none → s.calculating = true →
      runEvents s (callsOf V calls) =
        { s with waiters := s.waiters ++ calls.map (fun p => p.1) } := by
  induction calls with
  | nil => intro s h1 h2; simp [callsOf, runEvents]
  | cons c rest ih =>
    intro s h1 h2
    simp only [callsOf, List.map_cons, runEvents]
    have hstep : cacheStep s (CacheEvent.call c.1 c.2) =
        { s with waiters := s.waiters ++ [c.1] } := by
      simp [cacheStep, h1, h2]
    rw [hstep]
    have := ih { s with waiters := s.waiters ++ [c.1] } (by simp [h1]) (by simp [h2])
    simp only [callsOf] at this
    rw [this]
    simp

/-- Running a non-empty burst of calls against the fresh cache starts exactly
one computation and queues every caller on it. -/
theorem runCalls_from_init {V : Type} (calls : List (Nat × Nat))
    (hne : calls ≠ []) :
    runEvents (initCache V) (callsOf V calls) =
      { teamStrengths := none, calculating := true,
        waiters := calls.map (fun p => p.1), storedAt := none,
        computeCount := 1, delivered := [] } := by
  cases calls with
  | nil => exact absurd rfl hne
  | cons c rest =>
    simp only [callsOf, List.map_cons, runEvents]
    have hstep : cacheStep (initCache V) (CacheEvent.call c.1 c.2) =
        { teamStrengths := none, calculating := true, waiters := [c.1],
          storedAt := none, computeCount := 1, delivered := [] } := by
      simp [cacheStep, initCache]
    rw [hstep]
    have := cache_calls_join rest
      ({ teamStrengths := none, calculating := true, waiters := [c.1],
         storedAt := none, computeCount := 1, delivered := [] } : CacheState V)
      rfl rfl
    simp only [callsOf] at this
    rw [this]
    simp

/-- Claim C4: N concurrent callers arriving before the in-flight strength
computation resolves trigger exactly one invocation of the compute function,
and on fulfilment every caller receives the identical result value. -/
theorem c4_single_flight {V : Type} (v : V) (tR : Nat)
    (calls : List (Nat × Nat)) (hne : calls ≠ []) :
    (cacheStep (runEvents (initCache V) (callsOf V calls))
        (CacheEvent.resolveOk v tR)).computeCount = 1 ∧
    (cacheStep (runEvents (initCache V) (callsOf V calls))
        (CacheEvent.resolveOk v tR)).delivered =
      calls.map (fun p => (p.1, CallResult.ok v)) ∧
    (cacheStep (runEvents (initCache V) (callsOf V calls))
        (CacheEvent.resolveOk v tR)).teamStrengths = some v := by
  rw [runCalls_from_init calls hne]
  refine ⟨by simp [cacheStep], ?_, by simp [cacheStep]⟩
  simp [cacheStep, List.map_map, Function.comp]

/-- Witness for C4: three concurrent callers, one computation, all three
observe the value 42. -/
theorem c4_witness :
    (cacheStep (runEvents (initCache Nat) (callsOf Nat [(0, 0), (1, 0), (2, 0)]))
        (CacheEvent.resolveOk 42 7)).computeCount = 1 ∧
    (cacheStep (runEvents (initCache Nat) (callsOf Nat [(0, 0), (1, 0), (2, 0)]))
        (CacheEvent.resolveOk 42 7)).delivered =
      [(0, 0), (1, 0), (2, 0)].map (fun p => (p.1, CallResult.ok 42)) ∧
    (cacheStep (runEvents (initCache Nat) (callsOf Nat [(0, 0), (1, 0), (2, 0)]))
        (CacheEvent.resolveOk 42 7)).teamStrengths = some 42 :=
  c4_single_flight 42 7 [(0, 0), (1, 0), (2, 0)] (by decide)

/-- Claim C5: if the in-flight strength computation fails, the stored handle
is cleared and nothing is cached (so the very next call re-invokes the
compute function, raising the invocation count to 2), and the error is
propagated to every current waiter. -/
theorem c5_error_recovery {V : Type} (calls : List (Nat × Nat))
    (hne : calls ≠ []) (c2 t2 : Nat) :
    (cacheStep (runEvents (initCache V) (callsOf V calls))
        CacheEvent.resolveErr).teamStrengths = none ∧
    (cacheStep (runEvents (initCache V) (callsOf V calls))
        CacheEvent.resolveErr).calculating = false ∧
    (cacheStep (runEvents (initCache V) (callsOf V calls))
        CacheEvent.resolveErr).delivered =
      calls.map (fun p => (p.1, (CallResult.err : CallResult V))) ∧
    (cacheStep (cacheStep (runEvents (initCache V) (callsOf V calls))
        CacheEvent.resolveErr) (CacheEvent.call c2 t2)).computeCount = 2 := by
  rw [runCalls_from_init calls hne]
  refine ⟨by simp [cacheStep], by simp [cacheStep], ?_, ?_⟩
  · simp [cacheStep, List.map_map, Function.comp]
  · simp [cacheStep]

/-- Witness for C5: two waiters both observe the rejection, and the next
call starts a second computation. -/
theorem c5_witness :
    (cacheStep (runEvents (initCache Nat) (callsOf Nat [(0, 0), (1, 0)]))
        CacheEvent.resolveErr).teamStrengths = none ∧
    (cacheStep (runEvents (initCache Nat) (callsOf Nat [(0, 0), (1, 0)]))
        CacheEvent.resolveErr).calculating = false ∧
    (cacheStep (runEvents (initCache Nat) (callsOf Nat [(0, 0), (1, 0)]))
        CacheEvent.resolveErr).delivered =
      [(0, 0), (1, 0)].map (fun p => (p.1, (CallResult.err : CallResult Nat))) ∧
    (cacheStep (cacheStep (runEvents (initCache Nat) (callsOf Nat [(0, 0), (1, 0)]))
        CacheEvent.resolveErr) (CacheEvent.call 5 9)).computeCount = 2 :=
  c5_error_recovery [(0, 0), (1, 0)] (by decide) 5 9

/-- Claim C6 (amended: the strength cache has **no** time-based
invalidation): once an entry is cached, every later access — at any wall
clock time, arbitrarily long after it was stored — returns the stored result
without triggering a recomputation; the code never compares the entry's age
to a ttl. -/
theorem c6_no_ttl_expiry {V : Type} (s : CacheState V) (v : V) (c now : Nat)
    (hv : s.teamStrengths = some v) :
    cacheStep s (CacheEvent.call c now) =
      { s with delivered := s.delivered ++ [(c, CallResult.ok v)] } := by
  simp [cacheStep, hv]

/-- A cache state holding a result stored at time 0. -/
def exReadyState : CacheState Nat :=
  { teamStrengths := some 42, calculating := false, waiters := [],
    storedAt := some 0, computeCount := 1, delivered := [] }

/-- Witness for C6 (amended): an access a billion milliseconds after the
entry was stored still returns it and recomputes nothing. -/
theorem c6_witness :
    cacheStep exReadyState (CacheEvent.call 7 1000000000) =
      { exReadyState with
          delivered := exReadyState.delivered ++ [(7, CallResult.ok 42)] } :=
  c6_no_ttl_expiry exReadyState 42 7 1000000000 (by decide)

/-- Counterexample to C6 as stated: entry stored at time 0, next access at
time 10⁹ ms — far beyond any ttl (the only ttl constant in the repository is
5 minutes = 300000 ms, and 300000 < 10⁹) — yet the access is served from the
cache (`delivered` gets the stored 42) and the computation count stays 1:
the access is not treated as stale and triggers no recomputation. -/
theorem c6_counterexample :
    (300000 : Nat) < 1000000000 - 0 ∧
    (runEvents (initCache Nat)
        [CacheEvent.call 0 0, CacheEvent.resolveOk 42 0,
         CacheEvent.call 1 1000000000]).storedAt = some 0 ∧
    (runEvents (initCache Nat)
        [CacheEvent.call 0 0, CacheEvent.resolveOk 42 0,
         CacheEvent.call 1 1000000000]).computeCount = 1 ∧
    (runEvents (initCache Nat)
        [CacheEvent.call 0 0, CacheEvent.resolveOk 42 0,
         CacheEvent.call 1 1000000000]).delivered =
      [(0, CallResult.ok 42), (1, CallResult.ok 42)] := by
  refine ⟨by norm_num, ?_, ?_, ?_⟩ <;> decide

end FplViz
